import Mathlib

/-!
Shallow embedding of `src/libstd/result.rs` (the early Rust standard-library
`Result` module): the two-variant `Result` type, its combinators, the
`either` conversion, the option-iterator adapter, and the free fail-fast
traversal helpers `map_vec`, `map_vec2`, `iter_vec2`.

Modelling conventions:
- Rust `~[T]` / `&[T]` vectors become `List`.
- `fail!(msg)` (abnormal termination) becomes `Except.error msg`; a normal
  return becomes `Except.ok`.
- `assert!(...)` failure (abnormal termination with no modelled message)
  becomes `none`; the normal path becomes `some`.
- Closures whose invocation count matters are additionally embedded in an
  instrumented variant (suffix `C`) that threads an explicit `Nat` call
  counter through the loop, mirroring the source control flow line by line.
- Trait methods (`Clone.clone`, derived `Eq`) are passed as explicit
  function parameters where a claim depends on them.
-/

set_option autoImplicit false

universe u v w x

/-- The two-variant result type from the source:
`enum Result<T, E> { Ok(T), Err(E) }` (deriving Clone, Eq). -/
inductive Result (T : Type u) (E : Type v) where
  | Ok : T → Result T E
  | Err : E → Result T E
deriving DecidableEq

namespace Result

variable {T : Type u} {E : Type v} {U : Type w} {F : Type x}

/-- Source `fn to_either(self) -> Either<E, T>`: `Ok(t) => Right(t)`, `Err(e) => Left(e)`. -/
def to_either : Result T E → E ⊕ T
  | Ok t => Sum.inr t
  | Err e => Sum.inl e

/-- Source `fn unwrap(self) -> T`: returns the `Ok` payload, or fails with a message
built from the rendered error. -/
def unwrap [ToString E] : Result T E → Except String T
  | Ok t => Except.ok t
  | Err e => Except.error ("called `Result::unwrap()` on `Err` value: " ++ toString e)

/-- Source `fn expect(self, reason: &str) -> T`: returns the `Ok` payload, or fails
with exactly `reason` (the error payload is matched with `_`, never rendered). -/
def expect : Result T E → String → Except String T
  | Ok t, _ => Except.ok t
  | Err _, reason => Except.error reason

/-- Source `fn map_move<U>(self, op: &fn(T) -> U) -> Result<U, E>`. -/
def map_move : Result T E → (T → U) → Result U E
  | Ok t, op => Ok (op t)
  | Err e, _ => Err e

/-- Instrumented `map_move`: the closure is threaded through an explicit
call counter, incremented at each invocation. -/
def map_moveC : Result T E → (T → Nat → U × Nat) → Nat → Result U E × Nat
  | Ok t, op, n =>
    let p := op t n
    (Ok p.1, p.2)
  | Err e, _, n => (Err e, n)

/-- Source `fn chain<U>(self, op: &fn(T) -> Result<U, E>) -> Result<U, E>`:
`Ok(t) => op(t)`, `Err(e) => Err(e)`. -/
def chain : Result T E → (T → Result U E) → Result U E
  | Ok t, op => op t
  | Err e, _ => Err e

/-- Instrumented `chain`: the closure is threaded through an explicit call
counter, incremented at each invocation. -/
def chainC : Result T E → (T → Nat → Result U E × Nat) → Nat → Result U E × Nat
  | Ok t, op, n => op t n
  | Err e, _, n => (Err e, n)

/-- Source `fn map<U>(&self, op: &fn(&T) -> U) -> Result<U, E>` (requires `E: Clone`):
`Ok(ref t) => Ok(op(t))`, `Err(ref e) => Err(e.clone())`. The trait method
`clone` on `E` is passed explicitly as `cloneE`. -/
def map (cloneE : E → E) (op : T → U) : Result T E → Result U E
  | Ok t => Ok (op t)
  | Err e => Err (cloneE e)

/-- Source `fn iter(&self) -> OptionIterator<&T>`: the underlying option is `Some`
of the payload for `Ok`, `None` for `Err`; `.consume()` wraps it into the
one-shot iterator modelled below. -/
def iter : Result T E → Option T
  | Ok t => some t
  | Err _ => none

/-- Derived `Clone` on `Result`: clones the payload of whichever variant is
populated, via the payload types' own `clone` methods. -/
def clone (cloneT : T → T) (cloneE : E → E) : Result T E → Result T E
  | Ok t => Ok (cloneT t)
  | Err e => Err (cloneE e)

/-- Derived `Eq` on `Result`: structural comparison, via the payload types'
own equality methods; mixed variants compare unequal. -/
def eqb (eqT : T → T → Bool) (eqE : E → E → Bool) : Result T E → Result T E → Bool
  | Ok a, Ok b => eqT a b
  | Err a, Err b => eqE a b
  | _, _ => false

end Result

/-- Model of `OptionIterator` as used by `Result::iter`: a one-shot iterator over at
most one element. `next` yields the remaining element (if any) and leaves the
iterator exhausted. -/
structure OptionIterator (A : Type u) where
  remaining : Option A

/-- One step of the option iterator: yield the remaining element and the
exhausted rest. -/
def OptionIterator.next {A : Type u} (it : OptionIterator A) : Option A × OptionIterator A :=
  match it.remaining with
  | some a => (some a, ⟨none⟩)
  | none => (none, ⟨none⟩)

/-- The elements the iterator will yield, in order. -/
def OptionIterator.toList {A : Type u} (it : OptionIterator A) : List A :=
  match it.remaining with
  | some a => [a]
  | none => []

/-- Source `Option::consume(self) -> OptionIterator<A>`: wrap the option into the
one-shot iterator. -/
def Option.consume {A : Type u} (o : Option A) : OptionIterator A := ⟨o⟩

/-- The iterator produced by one call of `Result::iter`. -/
def Result.iterConsumed {T : Type u} {E : Type v} (r : Result T E) : OptionIterator T :=
  r.iter.consume

/-- The `for t in ts.iter()` loop of `map_vec`, with the accumulator vector
`vs` explicit: push the `Ok` payload and continue, or return the first `Err`. -/
def map_vec.loop {T : Type u} {U : Type v} {V : Type w}
    (op : T → Result V U) : List T → List V → Result (List V) U
  | [], vs => Result.Ok vs
  | t :: ts, vs =>
    match op t with
    | Result.Ok v => map_vec.loop op ts (vs ++ [v])
    | Result.Err u => Result.Err u

/-- Source `fn map_vec<T,U,V>(ts: &[T], op: &fn(&T) -> Result<V,U>) -> Result<~[V],U>`. -/
def map_vec {T : Type u} {U : Type v} {V : Type w}
    (ts : List T) (op : T → Result V U) : Result (List V) U :=
  map_vec.loop op ts []

/-- Instrumented `map_vec` loop: identical control flow, with an explicit
counter incremented at each invocation of `op`. -/
def map_vec.loopC {T : Type u} {U : Type v} {V : Type w}
    (op : T → Result V U) : List T → List V → Nat → Result (List V) U × Nat
  | [], vs, n => (Result.Ok vs, n)
  | t :: ts, vs, n =>
    match op t with
    | Result.Ok v => map_vec.loopC op ts (vs ++ [v]) (n + 1)
    | Result.Err u => (Result.Err u, n + 1)

/-- Instrumented `map_vec`: result paired with the number of invocations of `op`. -/
def map_vecC {T : Type u} {U : Type v} {V : Type w}
    (ts : List T) (op : T → Result V U) : Result (List V) U × Nat :=
  map_vec.loopC op ts [] 0

/-- The `while i < n` loop of `map_vec2`, reached only after
`assert!(same_length(ss, ts))`: structural recursion on the two (equal-length)
vectors, pushing each `Ok` payload, returning at the first `Err`. -/
def map_vec2.go {S : Type u} {T : Type v} {U : Type w} {V : Type x}
    (op : S → T → Result V U) : List S → List T → List V → Result (List V) U
  | s :: ss, t :: ts, vs =>
    match op s t with
    | Result.Ok v => map_vec2.go op ss ts (vs ++ [v])
    | Result.Err u => Result.Err u
  | _, _, vs => Result.Ok vs

/-- Source `fn map_vec2<S,T,U,V>(ss: &[S], ts: &[T], op) -> Result<~[V],U>`:
`assert!(vec::same_length(ss, ts))`, then the pairwise loop. The failed
assertion (abnormal termination) is modelled by `none`. -/
def map_vec2 {S : Type u} {T : Type v} {U : Type w} {V : Type x}
    (ss : List S) (ts : List T) (op : S → T → Result V U) :
    Option (Result (List V) U) :=
  if ss.length = ts.length then some (map_vec2.go op ss ts []) else none

/-- The `while i < n` loop of `iter_vec2`, reached only after the length
assertion: no output vector is built; return at the first `Err`. -/
def iter_vec2.go {S : Type u} {T : Type v} {U : Type w}
    (op : S → T → Result Unit U) : List S → List T → Result Unit U
  | s :: ss, t :: ts =>
    match op s t with
    | Result.Ok _ => iter_vec2.go op ss ts
    | Result.Err u => Result.Err u
  | _, _ => Result.Ok ()

/-- Source `fn iter_vec2<S,T,U>(ss: &[S], ts: &[T], op) -> Result<(),U>`:
`assert!(vec::same_length(ss, ts))`, then the pairwise loop. The failed
assertion (abnormal termination) is modelled by `none`. -/
def iter_vec2 {S : Type u} {T : Type v} {U : Type w}
    (ss : List S) (ts : List T) (op : S → T → Result Unit U) :
    Option (Result Unit U) :=
  if ss.length = ts.length then some (iter_vec2.go op ss ts) else none

section Lemmas

variable {S : Type u} {T : Type v} {U : Type w} {V : Type x} {E : Type u}

/-- Composing two `map_move`s composes the mapped functions. -/
theorem Result.map_move_comp (r : Result T E) (g : T → U) (h : U → V) :
    (r.map_move g).map_move h = r.map_move (fun t => h (g t)) := by
  cases r <;> rfl

/-- When `op` succeeds on every element, the `map_vec` loop appends the
mapped payloads, in order, to the accumulator. -/
theorem map_vec_loop_ok (op : T → Result V U) (f : T → V) :
    ∀ (ts : List T) (vs : List V), (∀ x ∈ ts, op x = Result.Ok (f x)) →
      map_vec.loop op ts vs = Result.Ok (vs ++ ts.map f) := by
  intro ts
  induction ts with
  | nil => intro vs _; simp [map_vec.loop]
  | cons t ts ih =>
    intro vs h
    have ht : op t = Result.Ok (f t) := h t (by simp)
    have hrest : ∀ x ∈ ts, op x = Result.Ok (f x) := fun x hx => h x (by simp [hx])
    simp only [map_vec.loop, ht, ih (vs ++ [f t]) hrest, List.map_cons,
      List.append_assoc, List.singleton_append]

/-- Counting version of `map_vec_loop_ok`: when `op` succeeds on every
element, it is invoked once per element. -/
theorem map_vec_loopC_ok (op : T → Result V U) (f : T → V) :
    ∀ (ts : List T) (vs : List V) (n : Nat), (∀ x ∈ ts, op x = Result.Ok (f x)) →
      map_vec.loopC op ts vs n = (Result.Ok (vs ++ ts.map f), n + ts.length) := by
  intro ts
  induction ts with
  | nil => intro vs n _; simp [map_vec.loopC]
  | cons t ts ih =>
    intro vs n h
    have ht : op t = Result.Ok (f t) := h t (by simp)
    have hrest : ∀ x ∈ ts, op x = Result.Ok (f x) := fun x hx => h x (by simp [hx])
    simp only [map_vec.loopC, ht, ih (vs ++ [f t]) (n + 1) hrest, List.map_cons,
      List.append_assoc, List.singleton_append, List.length_cons, Prod.mk.injEq]
    exact ⟨trivial, by omega⟩

/-- When `op` succeeds on every element of `pre` and fails on `t`, the
`map_vec` loop returns that failure having invoked `op` exactly
`pre.length + 1` times, never reaching `post`. -/
theorem map_vec_loop_err (op : T → Result V U) :
    ∀ (pre : List T) (t : T) (post : List T) (u : U) (vs : List V) (n : Nat),
      (∀ x ∈ pre, ∃ v, op x = Result.Ok v) → op t = Result.Err u →
      map_vec.loop op (pre ++ t :: post) vs = Result.Err u ∧
      map_vec.loopC op (pre ++ t :: post) vs n = (Result.Err u, n + (pre.length + 1)) := by
  intro pre
  induction pre with
  | nil =>
    intro t post u vs n _ ht
    simp [map_vec.loop, map_vec.loopC, ht]
  | cons x pre ih =>
    intro t post u vs n h ht
    obtain ⟨v, hv⟩ := h x (by simp)
    have hrest : ∀ y ∈ pre, ∃ w, op y = Result.Ok w := fun y hy => h y (by simp [hy])
    have hih := ih t post u (vs ++ [v]) (n + 1) hrest ht
    refine ⟨?_, ?_⟩
    · simpa [map_vec.loop, hv] using hih.1
    · have h2 := hih.2
      rw [List.cons_append]
      simp only [map_vec.loopC, hv]
      rw [h2]
      simp only [List.length_cons, Prod.mk.injEq]
      exact ⟨trivial, by omega⟩

/-- Running the `map_vec` loop with accumulator `vs` prepends `vs` to the
result of running it with an empty accumulator. -/
theorem map_vec_loop_acc (op : T → Result V U) :
    ∀ (ts : List T) (vs : List V),
      map_vec.loop op ts vs = (map_vec.loop op ts []).map_move (fun l => vs ++ l) := by
  intro ts
  induction ts with
  | nil => intro vs; simp [map_vec.loop, Result.map_move]
  | cons t ts ih =>
    intro vs
    cases hop : op t with
    | Ok v =>
      simp only [map_vec.loop, hop, List.nil_append]
      rw [ih (vs ++ [v]), ih [v], Result.map_move_comp]
      have hfun : (fun l : List V => vs ++ [v] ++ l) = fun l : List V => vs ++ ([v] ++ l) := by
        funext l
        simp
      rw [hfun]
    | Err u => simp [map_vec.loop, hop, Result.map_move]

/-- With equal-length inputs, the `map_vec2` loop is the `map_vec` loop over
the zipped pairs. -/
theorem map_vec2_go_eq_zip (op : S → T → Result V U) :
    ∀ (ss : List S) (ts : List T) (vs : List V), ss.length = ts.length →
      map_vec2.go op ss ts vs = map_vec.loop (fun p => op p.1 p.2) (ss.zip ts) vs := by
  intro ss
  induction ss with
  | nil =>
    intro ts vs h
    cases ts with
    | nil => simp [map_vec2.go, map_vec.loop]
    | cons t ts => simp at h
  | cons s ss ih =>
    intro ts vs h
    cases ts with
    | nil => simp at h
    | cons t ts =>
      have hlen : ss.length = ts.length := by simpa using h
      cases hop : op s t with
      | Ok v => simp [map_vec2.go, map_vec.loop, hop, ih ts (vs ++ [v]) hlen, List.zip]
      | Err u => simp [map_vec2.go, map_vec.loop, hop]

/-- With equal-length inputs, the `iter_vec2` loop is the `map_vec` loop over
the zipped pairs with the collected unit outputs discarded. -/
theorem iter_vec2_go_eq_zip (op : S → T → Result Unit U) :
    ∀ (ss : List S) (ts : List T), ss.length = ts.length →
      iter_vec2.go op ss ts =
        (map_vec.loop (fun p => op p.1 p.2) (ss.zip ts) []).map_move (fun _ => ()) := by
  intro ss
  induction ss with
  | nil =>
    intro ts h
    cases ts with
    | nil => simp [iter_vec2.go, map_vec.loop, Result.map_move]
    | cons t ts => simp at h
  | cons s ss ih =>
    intro ts h
    cases ts with
    | nil => simp at h
    | cons t ts =>
      have hlen : ss.length = ts.length := by simpa using h
      cases hop : op s t with
      | Ok v =>
        have hz : (s :: ss).zip (t :: ts) = (s, t) :: ss.zip ts := rfl
        rw [hz]
        simp only [iter_vec2.go, hop, map_vec.loop, List.nil_append]
        rw [ih ts hlen, map_vec_loop_acc (fun p => op p.1 p.2) (ss.zip ts) [v],
          Result.map_move_comp]
      | Err u => simp [iter_vec2.go, map_vec.loop, hop, Result.map_move]

end Lemmas

/-- C1: for every `t`, `f`, `e`: `Ok(t).chain(f)` returns `f t` directly with
no re-wrapping and `Err(e).chain(f)` returns `Err e`; under the
call-counting instrumentation of the closure, `f` is invoked exactly once in
the `Ok` case and zero times in the `Err` case, hence at most once per call. -/
theorem chain_spec :
    ∀ {T : Type u} {U : Type w} {E : Type v} (t : T) (e : E) (f : T → Result U E) (n : Nat),
    (Result.Ok t : Result T E).chain f = f t ∧
    (Result.Err e : Result T E).chain f = Result.Err e ∧
    Result.chainC (Result.Ok t : Result T E) (fun x m => (f x, m + 1)) n = (f t, n + 1) ∧
    Result.chainC (Result.Err e : Result T E) (fun x m => (f x, m + 1)) n =
      (Result.Err e, n) := by
  intro T U E t e f n
  exact ⟨rfl, rfl, rfl, rfl⟩

/-- C4: `unwrap` on `Ok(t)` returns `t`; on `Err(e)` it terminates abnormally
(modelled as `Except.error`, never a normal return) with the message built
from the fixed prefix and the text rendering of `e`. -/
theorem unwrap_spec :
    ∀ {T : Type u} {E : Type v} [ToString E] (t : T) (e : E),
    (Result.Ok t : Result T E).unwrap = Except.ok t ∧
    (Result.Err e : Result T E).unwrap =
      Except.error ("called `Result::unwrap()` on `Err` value: " ++ toString e) := by
  intro T E _ t e
  exact ⟨rfl, rfl⟩

/-- C5: `expect(reason)` on `Ok(t)` returns `t`; on `Err(e)` it terminates
abnormally with exactly the caller-supplied `reason`, and the outcome is
independent of the failure payload (two different payloads give the same
outcome; the payload's rendering is never consulted — `expect` requires no
text-rendering capability at all). -/
theorem expect_spec :
    ∀ {T : Type u} {E : Type v} (t : T) (e e' : E) (reason : String),
    (Result.Ok t : Result T E).expect reason = Except.ok t ∧
    (Result.Err e : Result T E).expect reason = Except.error reason ∧
    (Result.Err e : Result T E).expect reason = (Result.Err e' : Result T E).expect reason := by
  intro T E t e e' reason
  exact ⟨rfl, rfl, rfl⟩

/-- C6: `map_move` sends `Ok(t)` to `Ok (f t)` and `Err(e)` to `Err e`, the
failure payload passing through unchanged; under the call-counting
instrumentation the closure is never invoked in the `Err` case. -/
theorem map_move_spec :
    ∀ {T : Type u} {U : Type w} {E : Type v} (t : T) (e : E) (f : T → U) (n : Nat),
    (Result.Ok t : Result T E).map_move f = Result.Ok (f t) ∧
    (Result.Err e : Result T E).map_move f = Result.Err e ∧
    Result.map_moveC (Result.Err e : Result T E) (fun x m => (f x, m + 1)) n =
      (Result.Err e, n) := by
  intro T U E t e f n
  exact ⟨rfl, rfl, rfl⟩

/-- C7: the non-consuming `map` sends `Ok(t)` to `Ok (op t)` and `Err(e)` to
`Err (cloneE e)`; when the duplication capability is well-behaved (the
duplicate equals the original, as for a derived `Clone`), `map` agrees with
the consuming `map_move` on every result. -/
theorem map_spec :
    ∀ {T : Type u} {U : Type w} {E : Type v} (cloneE : E → E) (op : T → U)
      (t : T) (e : E) (r : Result T E),
    (∀ a, cloneE a = a) →
    (Result.Ok t : Result T E).map cloneE op = Result.Ok (op t) ∧
    (Result.Err e : Result T E).map cloneE op = Result.Err (cloneE e) ∧
    r.map cloneE op = r.map_move op := by
  intro T U E cloneE op t e r hclone
  refine ⟨rfl, rfl, ?_⟩
  cases r with
  | Ok a => rfl
  | Err a =>
    show Result.Err (cloneE a) = Result.Err a
    rw [hclone a]

/-- Witness for C7 at concrete inputs: `cloneE` is the identity on `Nat`. -/
theorem map_spec_witness :
    (Result.Ok 3 : Result Nat Nat).map (fun e => e) (fun t => t + 1) = Result.Ok 4 ∧
    (Result.Err 5 : Result Nat Nat).map (fun e => e) (fun t => t + 1) =
      (Result.Err 5 : Result Nat Nat).map_move (fun t => t + 1) := by
  have h := map_spec (fun e : Nat => e) (fun t : Nat => t + 1) 3 5
    (Result.Err 5 : Result Nat Nat) (fun a => rfl)
  exact ⟨h.1, h.2.2⟩

/-- C8: `to_either` sends `Ok(t)` to the right case carrying `t` and `Err(e)`
to the left case carrying `e`; every result lands in exactly one of these two
outcomes. -/
theorem to_either_spec :
    ∀ {T : Type u} {E : Type v} (t : T) (e : E) (r : Result T E),
    (Result.Ok t : Result T E).to_either = Sum.inr t ∧
    (Result.Err e : Result T E).to_either = Sum.inl e ∧
    ((∃ a, r = Result.Ok a ∧ r.to_either = Sum.inr a) ∨
      (∃ b, r = Result.Err b ∧ r.to_either = Sum.inl b)) := by
  intro T E t e r
  refine ⟨rfl, rfl, ?_⟩
  cases r with
  | Ok a => exact Or.inl ⟨a, rfl, rfl⟩
  | Err b => exact Or.inr ⟨b, rfl, rfl⟩

/-- C9: the iterator produced by `Result::iter` yields exactly `[t]` on
`Ok(t)` (one element, then exhausted) and `[]` on `Err(e)` (immediately
exhausted); `iter` reads the result through a reference, so a repeated call
on the same unchanged result builds an equal fresh iterator yielding the same
payload again. -/
theorem iter_spec :
    ∀ {T : Type u} {E : Type v} (t : T) (e : E),
    (Result.Ok t : Result T E).iterConsumed.toList = [t] ∧
    (Result.Err e : Result T E).iterConsumed.toList = [] ∧
    (Result.Ok t : Result T E).iterConsumed.next = (some t, ⟨none⟩) ∧
    (Result.Ok t : Result T E).iterConsumed.next.2.next = (none, ⟨none⟩) ∧
    (Result.Err e : Result T E).iterConsumed.next = (none, ⟨none⟩) ∧
    (Result.Ok t : Result T E).iterConsumed = (Result.Ok t : Result T E).iterConsumed ∧
    (Result.Ok t : Result T E).iterConsumed.next.1 = some t := by
  intro T E t e
  exact ⟨rfl, rfl, rfl, rfl, rfl, rfl, rfl⟩

/-- C10: the derived duplication on the result type returns a value equal to
the original whenever the payload duplications do, and the derived equality
is structural: two `Ok`s compare by payload, two `Err`s compare by payload,
and mixed variants never compare equal. -/
theorem clone_eq_spec :
    ∀ {T : Type u} {E : Type v} (eqT : T → T → Bool) (eqE : E → E → Bool)
      (cloneT : T → T) (cloneE : E → E) (r : Result T E) (a b : T) (e f : E),
    (∀ x, cloneT x = x) → (∀ x, cloneE x = x) →
    r.clone cloneT cloneE = r ∧
    Result.eqb eqT eqE (Result.Ok a) (Result.Ok b) = eqT a b ∧
    Result.eqb eqT eqE (Result.Err e) (Result.Err f) = eqE e f ∧
    Result.eqb eqT eqE (Result.Ok a) (Result.Err f) = false ∧
    Result.eqb eqT eqE (Result.Err e) (Result.Ok b) = false := by
  intro T E eqT eqE cloneT cloneE r a b e f hT hE
  refine ⟨?_, rfl, rfl, rfl, rfl⟩
  cases r with
  | Ok x =>
    show Result.Ok (cloneT x) = Result.Ok x
    rw [hT x]
  | Err x =>
    show Result.Err (cloneE x) = Result.Err x
    rw [hE x]

/-- Witness for C10 at concrete inputs: identity duplications and `Nat.beq`
payload equality. -/
theorem clone_eq_spec_witness :
    (Result.Ok 1 : Result Nat Nat).clone (fun x => x) (fun x => x) = Result.Ok 1 ∧
    Result.eqb Nat.beq Nat.beq (Result.Ok 1) (Result.Err 2) = false := by
  have h := clone_eq_spec Nat.beq Nat.beq (fun x : Nat => x) (fun x : Nat => x)
    (Result.Ok 1 : Result Nat Nat) 1 1 2 2 (fun x => rfl) (fun x => rfl)
  exact ⟨h.1, h.2.2.2.1⟩

/-- C2: `map_vec` applies `op` in index order. On the empty input it returns
`Ok []` with zero invocations. If `op` succeeds everywhere it returns `Ok` of
the success payloads in input order (the same length as the input), invoking
`op` once per element. If the first failure is at index `pre.length` (every
element of `pre` succeeds, `t` fails with `u`), it returns `Err u`, invoking
`op` exactly `pre.length + 1` times (never on `post`), and the partial output
is discarded. -/
theorem map_vec_spec :
    ∀ {T : Type u} {U : Type v} {V : Type w} (ts pre post : List T) (t : T)
      (op : T → Result V U) (f : T → V) (u : U),
    (map_vec ([] : List T) op = Result.Ok [] ∧ map_vecC ([] : List T) op = (Result.Ok [], 0)) ∧
    ((∀ x ∈ ts, op x = Result.Ok (f x)) →
      map_vec ts op = Result.Ok (ts.map f) ∧
      map_vecC ts op = (Result.Ok (ts.map f), ts.length)) ∧
    ((∀ x ∈ pre, ∃ v, op x = Result.Ok v) → op t = Result.Err u →
      map_vec (pre ++ t :: post) op = Result.Err u ∧
      map_vecC (pre ++ t :: post) op = (Result.Err u, pre.length + 1)) := by
  intro T U V ts pre post t op f u
  refine ⟨⟨rfl, rfl⟩, ?_, ?_⟩
  · intro h
    constructor
    · simpa [map_vec] using map_vec_loop_ok op f ts [] h
    · simpa [map_vecC] using map_vec_loopC_ok op f ts [] 0 h
  · intro hpre ht
    have h := map_vec_loop_err op pre t post u [] 0 hpre ht
    exact ⟨h.1, by simpa [map_vecC] using h.2⟩

/-- Witness for C2 at the spec's concrete example: `op` fails exactly on `2`,
so `map_vec [1, 2, 3]` returns the failure having invoked `op` twice, and the
empty input returns `Ok []`. -/
theorem map_vec_spec_witness :
    map_vec [1, 2, 3] (fun x => if x = 2 then Result.Err "bad" else Result.Ok x) =
      Result.Err "bad" ∧
    map_vecC [1, 2, 3] (fun x => if x = 2 then Result.Err "bad" else Result.Ok x) =
      (Result.Err "bad", 2) ∧
    map_vec ([] : List Nat) (fun x => if x = 2 then Result.Err "bad" else Result.Ok x) =
      Result.Ok [] := by
  have h := map_vec_spec [1, 2, 3] [1] [3] 2
    (fun x : Nat => if x = 2 then Result.Err "bad" else Result.Ok x) (fun x => x) "bad"
  have h3 := h.2.2 ?hpre ?hfail
  case hpre =>
    intro x hx
    have hx1 : x = 1 := by simpa using hx
    subst hx1
    exact ⟨1, rfl⟩
  case hfail => rfl
  exact ⟨h3.1, h3.2, h.1.1⟩

/-- C3: `map_vec2` and `iter_vec2` terminate abnormally (the modelled
assertion failure, `none`) on unequal-length inputs instead of returning a
failure value; on equal-length inputs the assertion never fires and both run
the shared fail-fast policy pairwise in index order: `map_vec2` is `map_vec`
over the zipped pairs and `iter_vec2` is the same with the collected outputs
discarded. -/
theorem map_vec2_spec :
    ∀ {S : Type u} {T : Type v} {U : Type w} {V : Type x} (ss : List S) (ts : List T)
      (op : S → T → Result V U) (op2 : S → T → Result Unit U),
    (ss.length ≠ ts.length → map_vec2 ss ts op = none ∧ iter_vec2 ss ts op2 = none) ∧
    (ss.length = ts.length →
      map_vec2 ss ts op = some (map_vec (ss.zip ts) (fun p => op p.1 p.2)) ∧
      iter_vec2 ss ts op2 =
        some ((map_vec (ss.zip ts) (fun p => op2 p.1 p.2)).map_move (fun _ => ()))) := by
  intro S T U V ss ts op op2
  constructor
  · intro h
    constructor
    · simp [map_vec2, h]
    · simp [iter_vec2, h]
  · intro h
    constructor
    · simp [map_vec2, h, map_vec, map_vec2_go_eq_zip op ss ts [] h]
    · simp [iter_vec2, h, map_vec, iter_vec2_go_eq_zip op2 ss ts h]

/-- Witness for C3 at concrete inputs: mismatched lengths give the modelled
assertion failure; matched lengths give the pairwise results. -/
theorem map_vec2_spec_witness :
    map_vec2 [1] ([] : List Nat) (fun s t => (Result.Ok (s + t) : Result Nat Nat)) = none ∧
    iter_vec2 [1] ([] : List Nat) (fun _ _ => (Result.Ok () : Result Unit Nat)) = none ∧
    map_vec2 [1, 2] [3, 4] (fun s t => (Result.Ok (s + t) : Result Nat Nat)) =
      some (Result.Ok [4, 6]) ∧
    iter_vec2 [1, 2] [3, 4] (fun _ _ => (Result.Ok () : Result Unit Nat)) =
      some (Result.Ok ()) := by
  have h1 := (map_vec2_spec [1] ([] : List Nat)
    (fun s t => (Result.Ok (s + t) : Result Nat Nat))
    (fun _ _ => (Result.Ok () : Result Unit Nat))).1 (by decide)
  have h2 := (map_vec2_spec [1, 2] [3, 4]
    (fun s t => (Result.Ok (s + t) : Result Nat Nat))
    (fun _ _ => (Result.Ok () : Result Unit Nat))).2 rfl
  refine ⟨h1.1, h1.2, ?_, ?_⟩
  · rw [h2.1]
    rfl
  · rw [h2.2]
    rfl
